import Mathlib

/-!
Verification of the GymBros friend-graph, discovery and daily-activity
aggregation logic, shallowly embedded from `src/firestore.js` and
`src/app/(app)/home.tsx`.

The Firestore document store is modelled as association lists keyed by
document id. The `arrayUnion` field transform, the query predicates and the
client-side filters/sorts are translated directly from the source. Dates are
modelled as integer milliseconds in local time; `setHours(0,0,0,0)` becomes
flooring to a multiple of `msPerDay`. `Math.random`-driven draws are modelled
as an ambient stream of draws `Nat → Nat`.
-/

namespace GymBros

/-- A document of the `users` collection (fields set by `createUser`). -/
structure UserDoc where
  userID : String
  name : String
  friends : List String
  profilePicURL : String
  friendCode : String
  deriving Repr, DecidableEq

/-- A document of the `friendRequests` collection (fields set by `sendFriendRequest`). -/
structure FriendRequest where
  fromUserID : String
  toUserID : String
  status : String
  createdAt : Int
  deriving Repr, DecidableEq

/-- A document of the `workouts` collection (fields set by `createWorkout`). -/
structure WorkoutDoc where
  userID : String
  date : Int
  caloriesConsumed : Int
  muscleGroup : String
  completed : Bool
  createdAt : Int
  deriving Repr, DecidableEq

/-- A document of the `calorieEntries` collection (fields set by `createCalorieEntry`). -/
structure CalorieEntry where
  userID : String
  date : Int
  amount : Int
  description : String
  protein : Option Int
  carbs : Option Int
  fat : Option Int
  createdAt : Int
  deriving Repr, DecidableEq

/-- The optional macros argument of `createCalorieEntry`. -/
structure Macros where
  protein : Option Int
  carbs : Option Int
  fat : Option Int
  deriving Repr, DecidableEq

/-- The Firestore database: one association list per collection, keyed by
document id, plus a counter supplying fresh ids for `addDoc`. -/
structure Store where
  users : List (String × UserDoc)
  friendRequests : List (Nat × FriendRequest)
  workouts : List (Nat × WorkoutDoc)
  calorieEntries : List (Nat × CalorieEntry)
  nextId : Nat
  deriving Repr, DecidableEq

/-- Errors surfaced by the embedded operations: the `throw new Error(...)`
sites of `firestore.js`, plus the store-level rejection of `updateDoc` on a
missing document and the TypeError raised by reading `.friends` of `null`. -/
inductive FsError where
  | requestAlreadySent
  | alreadyFriends
  | requestNotFound
  | docMissing
  | nullUser
  | codeGenFailed
  deriving Repr, DecidableEq

/-- Key-based document lookup in the `users` collection. -/
def lookupUser (users : List (String × UserDoc)) (userId : String) : Option UserDoc :=
  (users.find? (fun p => p.1 == userId)).map Prod.snd

/-- `getUser`: read the `users` document with the given id (`getDoc` returning
`null` when absent). -/
def getUser (s : Store) (userId : String) : Option UserDoc :=
  lookupUser s.users userId

/-- Firestore `arrayUnion`: append the element only when it is not already in
the array. -/
def arrayUnion (l : List String) (x : String) : List String :=
  if x ∈ l then l else l ++ [x]

/-- The per-document effect of `updateDoc(..., { friends: arrayUnion(friendId) })`. -/
def addFriendTransform (friendId : String) (u : UserDoc) : UserDoc :=
  { u with friends := arrayUnion u.friends friendId }

/-- The users list after `updateDoc(doc(db, users, userId), { friends: arrayUnion(friendId) })`. -/
def updateFriends (users : List (String × UserDoc)) (userId friendId : String) :
    List (String × UserDoc) :=
  users.map (fun p =>
    if p.1 == userId then (p.1, addFriendTransform friendId p.2) else p)

/-- `addFriend`: `updateDoc` with an `arrayUnion` on the friends field; the
store rejects the update when the user document does not exist. -/
def addFriend (s : Store) (userId friendId : String) : Except FsError Store :=
  if s.users.any (fun p => p.1 == userId) then
    .ok { s with users := updateFriends s.users userId friendId }
  else
    .error .docMissing

/-- Key-based document lookup in the `friendRequests` collection. -/
def lookupRequest (reqs : List (Nat × FriendRequest)) (requestId : Nat) :
    Option FriendRequest :=
  (reqs.find? (fun p => p.1 == requestId)).map Prod.snd

/-- Read the `friendRequests` document with the given id. -/
def getRequest (s : Store) (requestId : Nat) : Option FriendRequest :=
  lookupRequest s.friendRequests requestId

/-- The per-document effect of `updateDoc(..., { status })`. -/
def setStatusTransform (st : String) (r : FriendRequest) : FriendRequest :=
  { r with status := st }

/-- The requests list after `updateDoc(doc(db, friendRequests, requestId), { status })`. -/
def setStatusMap (reqs : List (Nat × FriendRequest)) (requestId : Nat) (st : String) :
    List (Nat × FriendRequest) :=
  reqs.map (fun p => if p.1 == requestId then (p.1, setStatusTransform st p.2) else p)

/-- `updateDoc(doc(db, friendRequests, requestId), { status })`: fails when no
such document exists, otherwise overwrites the status field. -/
def setRequestStatus (s : Store) (requestId : Nat) (st : String) : Except FsError Store :=
  if s.friendRequests.any (fun p => p.1 == requestId) then
    .ok { s with friendRequests := setStatusMap s.friendRequests requestId st }
  else
    .error .docMissing

/-- `sendFriendRequest(fromUserId, toUserId)`: rejects when a pending request
for the ordered pair exists, then when the two users are already friends, and
otherwise `addDoc`s a new pending request, returning its id. Reading
`fromUser.friends` when `getUser` returned `null` is, in the source, an uncaught
TypeError, modelled as the `nullUser` error. -/
def sendFriendRequest (s : Store) (now : Int) (fromUserId toUserId : String) :
    Except FsError (Store × Nat) :=
  if s.friendRequests.any (fun p =>
      p.2.fromUserID == fromUserId && p.2.toUserID == toUserId && p.2.status == "pending") then
    .error .requestAlreadySent
  else
    match getUser s fromUserId with
    | none => .error .nullUser
    | some fromUser =>
      if fromUser.friends.contains toUserId then
        .error .alreadyFriends
      else
        .ok ({ s with
                friendRequests := s.friendRequests ++
                  [(s.nextId, ⟨fromUserId, toUserId, "pending", now⟩)],
                nextId := s.nextId + 1 },
             s.nextId)

/-- `acceptFriendRequest(requestId)`: fails when the request is missing, then
adds each party to the friends array of the other and marks the request accepted. -/
def acceptFriendRequest (s : Store) (requestId : Nat) : Except FsError Store :=
  match getRequest s requestId with
  | none => .error .requestNotFound
  | some requestData =>
    match addFriend s requestData.fromUserID requestData.toUserID with
    | .error e => .error e
    | .ok s1 =>
      match addFriend s1 requestData.toUserID requestData.fromUserID with
      | .error e => .error e
      | .ok s2 => setRequestStatus s2 requestId "accepted"

/-- `rejectFriendRequest(requestId)`: a bare `updateDoc` of the status field,
with no existence pre-check of its own beyond that of the store. -/
def rejectFriendRequest (s : Store) (requestId : Nat) : Except FsError Store :=
  setRequestStatus s requestId "rejected"

/-- `searchUserByNameAndCode(name, friendCode)`: equality query on both fields,
returning the first matching document (with its id) or `null`. -/
def searchUserByNameAndCode (s : Store) (name friendCode : String) :
    Option (String × UserDoc) :=
  (s.users.filter (fun p => p.2.name == name && p.2.friendCode == friendCode)).head?

/-- The retry loop of `generateUniqueFriendCode`: `i` indexes the next random
draw, the second argument is the remaining attempts. A draw is kept when no
user document holds it as `friendCode`. -/
def genFrom (users : List (String × UserDoc)) (draws : Nat → Nat) :
    Nat → Nat → Except FsError String
  | _, 0 => .error .codeGenFailed
  | i, n + 1 =>
    let code := toString (draws i)
    if users.any (fun p => p.2.friendCode == code) then
      genFrom users draws (i + 1) n
    else
      .ok code

/-- `generateUniqueFriendCode`: up to `maxAttempts = 100` draws of
`Math.floor(1000 + Math.random() * 9000)`, each checked for uniqueness against
the `users` collection. -/
def generateUniqueFriendCode (s : Store) (draws : Nat → Nat) : Except FsError String :=
  genFrom s.users draws 0 100

/-- `createWorkout(userId, date, caloriesConsumed, muscleGroup, completed)`:
`addDoc` into the `workouts` collection, returning the new document id. -/
def createWorkout (s : Store) (now : Int) (userId : String) (date : Int)
    (caloriesConsumed : Int) (muscleGroup : String) (completed : Bool) : Store × Nat :=
  ({ s with
      workouts := s.workouts ++
        [(s.nextId, ⟨userId, date, caloriesConsumed, muscleGroup, completed, now⟩)],
      nextId := s.nextId + 1 },
   s.nextId)

/-- Milliseconds per local calendar day. -/
def msPerDay : Int := 86400000

/-- `d.setHours(0, 0, 0, 0)`: floor a local-time instant to the start of its
calendar day. -/
def startOfDayMs (t : Int) : Int := msPerDay * (t / msPerDay)

/-- The local calendar day an instant belongs to. -/
def calendarDay (t : Int) : Int := t / msPerDay

/-- `getTodayDateRange()`: start of the current day and the same day at
23:59:59.999. -/
def getTodayDateRange (now : Int) : Int × Int :=
  (startOfDayMs now, startOfDayMs now + (msPerDay - 1))

/-- The macro-field guard of `createCalorieEntry`: a macro is stored only when
present and nonnegative. -/
def keepMacro (m : Option Int) : Option Int :=
  match m with
  | some v => if 0 ≤ v then some v else none
  | none => none

/-- `createCalorieEntry(userId, date, amount, description, macros)`: the entry
date is normalized to the start of its day before the document is written. -/
def createCalorieEntry (s : Store) (now : Int) (userId : String) (date : Int)
    (amount : Int) (description : String) (macros : Option Macros) : Store × Nat :=
  let entryDate := startOfDayMs date
  let e : CalorieEntry :=
    { userID := userId, date := entryDate, amount := amount, description := description
      protein := match macros with | none => none | some m => keepMacro m.protein
      carbs := match macros with | none => none | some m => keepMacro m.carbs
      fat := match macros with | none => none | some m => keepMacro m.fat
      createdAt := now }
  ({ s with calorieEntries := s.calorieEntries ++ [(s.nextId, e)], nextId := s.nextId + 1 },
   s.nextId)

/-- The `slice(i, i + batchSize)` loop: split a list into consecutive chunks of
at most `n` elements. -/
def chunkList (n : Nat) : List α → List (List α)
  | [] => []
  | x :: xs => (x :: xs.take (n - 1)) :: chunkList n (xs.drop (n - 1))
termination_by l => l.length
decreasing_by simp [List.length_drop]; omega

/-- The per-user accumulation loop of `getDailyCaloriesForUsers`
(`caloriesByUser[entry.userID] += entry.amount`). -/
def aggregateCalories (entries : List CalorieEntry) : String → Int :=
  entries.foldl (fun m e => fun u => if u == e.userID then m u + e.amount else m u)
    (fun _ => 0)

/-- The calories the aggregation attributes to one user: the sum of the
amounts of the entries of that user. -/
def userTotal (u : String) (entries : List CalorieEntry) : Int :=
  ((entries.filter (fun e => e.userID == u)).map CalorieEntry.amount).sum

/-- `getDailyCaloriesForUsers(userIds)` over a store whose `calorieEntries`
data is `entries`: batches of 30 ids, a range query per batch
(`date >= startOfDay` in the query, `date <= endOfDay` client-side), results
concatenated then aggregated per user. -/
def getDailyCaloriesForUsers (entries : List CalorieEntry) (now : Int)
    (userIds : List String) : String → Int :=
  if userIds.isEmpty then fun _ => 0
  else
    let r := getTodayDateRange now
    let allEntries := ((chunkList 30 userIds).map (fun batch =>
      entries.filter (fun e =>
        batch.contains e.userID && decide (r.1 ≤ e.date) && decide (e.date ≤ r.2)))).flatten
    aggregateCalories allEntries

/-- Modelled from the spec: the hypothetical single unbatched daily-calories
query of the batch-merge idempotence property, one pass over the whole id
list. -/
def dailyCaloriesUnbatched (entries : List CalorieEntry) (now : Int)
    (userIds : List String) : String → Int :=
  let r := getTodayDateRange now
  aggregateCalories (entries.filter (fun e =>
    userIds.contains e.userID && decide (r.1 ≤ e.date) && decide (e.date ≤ r.2)))

/-- The merged workout snapshot of `subscribeToDailyWorkouts` over a store
whose `workouts` data is `workouts`: per-batch range queries on at most 30 ids,
merged across batches in batch order. -/
def dailyWorkoutsMerged (workouts : List WorkoutDoc) (now : Int)
    (userIds : List String) : List WorkoutDoc :=
  if userIds.isEmpty then []
  else
    let r := getTodayDateRange now
    ((chunkList 30 userIds).map (fun batch =>
      workouts.filter (fun w =>
        batch.contains w.userID && decide (r.1 ≤ w.date) && decide (w.date ≤ r.2)))).flatten

/-- Modelled from the spec: the hypothetical single unbatched daily-workouts
query of the batch-merge idempotence property. -/
def dailyWorkoutsUnbatched (workouts : List WorkoutDoc) (now : Int)
    (userIds : List String) : List WorkoutDoc :=
  let r := getTodayDateRange now
  workouts.filter (fun w =>
    userIds.contains w.userID && decide (r.1 ≤ w.date) && decide (w.date ≤ r.2))

/-- A feed entry of the home screen (interface `FriendWithWorkout`). -/
structure FeedEntry where
  userID : String
  name : String
  friendCode : String
  profilePicURL : String
  workedOutToday : Bool
  totalCalories : Int
  muscleGroups : List String
  lastWorkoutTime : Option Int
  deriving Repr, DecidableEq

/-- `a.name.localeCompare(b.name)`, pinned (as the spec requires for
reproducibility) to the case-sensitive code-point collation. -/
def localeCompare (s t : String) : Int :=
  if s < t then -1 else if t < s then 1 else 0

/-- `[...new Set(list)]`: deduplicate keeping the first occurrence of each
element, in order. -/
def dedupFirst (l : List String) : List String :=
  l.foldl (fun acc x => if acc.contains x then acc else acc ++ [x]) []

/-- Insert into an already comparator-sorted list, keeping the inserted
element before any element it does not strictly follow (stable order). -/
def insertByCmp (cmp : α → α → Int) (x : α) : List α → List α
  | [] => [x]
  | y :: ys => if cmp x y ≤ 0 then x :: y :: ys else y :: insertByCmp cmp x ys

/-- `Array.prototype.sort(cmp)`: a stable comparison sort, modelled as
insertion sort driven by the JS three-way comparator. -/
def sortByCmp (cmp : α → α → Int) (l : List α) : List α :=
  l.foldr (insertByCmp cmp) []

/-- The per-friend aggregation step of `friendsWithWorkouts` in `home.tsx`:
same-day workouts of the friend, deduplicated non-blank muscle groups, total
calories from the calories map, most recent workout time. -/
def aggregateFriend (workouts : List WorkoutDoc) (caloriesByUser : String → Int)
    (friend : UserDoc) : FeedEntry :=
  let friendWorkouts := workouts.filter (fun w => w.userID == friend.userID)
  if friendWorkouts.isEmpty then
    { userID := friend.userID, name := friend.name, friendCode := friend.friendCode
      profilePicURL := friend.profilePicURL, workedOutToday := false
      totalCalories := caloriesByUser friend.userID, muscleGroups := []
      lastWorkoutTime := none }
  else
    let totalCalories := caloriesByUser friend.userID
    let muscleGroups := dedupFirst
      ((friendWorkouts.map (fun w => w.muscleGroup)).filter (fun g => !(g.trim == "")))
    let workoutTimes := sortByCmp (fun a b => b - a) (friendWorkouts.map (fun w => w.date))
    { userID := friend.userID, name := friend.name, friendCode := friend.friendCode
      profilePicURL := friend.profilePicURL, workedOutToday := true
      totalCalories := totalCalories, muscleGroups := muscleGroups
      lastWorkoutTime := workoutTimes.head? }

/-- The feed sort comparator of `home.tsx`: friends who worked out first, then
by most recent workout descending (missing time last), inactive friends by
name. -/
def feedCompare (a b : FeedEntry) : Int :=
  if a.workedOutToday && !b.workedOutToday then -1
  else if !a.workedOutToday && b.workedOutToday then 1
  else if a.workedOutToday && b.workedOutToday then
    match a.lastWorkoutTime, b.lastWorkoutTime with
    | none, _ => 1
    | some _, none => -1
    | some ta, some tb => tb - ta
  else localeCompare a.name b.name

/-- The `friendsWithWorkouts` memo of `home.tsx`: aggregate every friend, then
sort with `feedCompare`. -/
def friendsWithWorkouts (friends : List UserDoc) (workouts : List WorkoutDoc)
    (caloriesByUser : String → Int) : List FeedEntry :=
  sortByCmp feedCompare (friends.map (aggregateFriend workouts caloriesByUser))

/-! Concrete states used to exercise the operations. -/

/-- A user document as `createUser` writes it. -/
def uAlice : UserDoc := ⟨"a", "Alice", [], "", "1000"⟩

/-- A second user document. -/
def uBob : UserDoc := ⟨"b", "Bob", [], "", "2000"⟩

/-- A user document whose friend code is not 4 digits. -/
def uCara : UserDoc := ⟨"c", "Cara", [], "", "12345"⟩

/-- The empty database. -/
def emptyStore : Store := ⟨[], [], [], [], 0⟩

/-- Two users, no requests. -/
def pairStore : Store := ⟨[("a", uAlice), ("b", uBob)], [], [], [], 0⟩

/-- Two users with a pending friend request between them. -/
def requestStore : Store :=
  { pairStore with friendRequests := [(0, ⟨"a", "b", "pending", 0⟩)], nextId := 1 }

/-- Two users already friends, with their request already accepted. -/
def resolvedStore : Store :=
  ⟨[("a", { uAlice with friends := ["b"] }), ("b", { uBob with friends := ["a"] })],
   [(0, ⟨"a", "b", "accepted", 0⟩)], [], [], 1⟩

/-- One user holding a five-digit friend code. -/
def searchStore : Store := ⟨[("c", uCara)], [], [], [], 0⟩

/-- One user holding code 1000. -/
def codeStore : Store := ⟨[("u1", ⟨"u1", "Uma", [], "", "1000"⟩)], [], [], [], 0⟩

/-- A draw stream that always produces 1001. -/
def constDraws : Nat → Nat := fun _ => 1001

/-- Friend F1, who worked out at time 900. -/
def fOne : UserDoc := ⟨"F1", "Finn", [], "", "1111"⟩

/-- Friend F2, who worked out at time 1400. -/
def fTwo : UserDoc := ⟨"F2", "Gail", [], "", "2222"⟩

/-- Friend F3, with no workout. -/
def fThree : UserDoc := ⟨"F3", "Ann", [], "", "3333"⟩

/-- The three concrete friends of the feed example. -/
def feedFriends : List UserDoc := [fOne, fTwo, fThree]

/-- Same-day workouts: F1 at 900, F2 at 1400. -/
def feedWorkouts : List WorkoutDoc :=
  [⟨"F1", 900, 0, "Chest", true, 0⟩, ⟨"F2", 1400, 0, "Arms", true, 0⟩]

/-- Sixty-five distinct user ids, filling three query batches. -/
def ids65 : List String := (List.range 65).map (fun n => toString n)

/-- Calorie entries for two of the 65 users, dated inside day zero. -/
def calEntries65 : List CalorieEntry :=
  [⟨"3", 50, 500, "", none, none, none, 0⟩, ⟨"40", 60, 250, "", none, none, none, 1⟩]

/-- A workout for one of the 65 users, dated inside day zero. -/
def workouts65 : List WorkoutDoc := [⟨"10", 70, 0, "Legs", true, 2⟩]

/-! Association-list and `arrayUnion` helper lemmas. -/

theorem find_update_assoc {κ ν : Type} [BEq κ] [LawfulBEq κ]
    (l : List (κ × ν)) (k0 : κ) (g : ν → ν) (k : κ) :
    (l.map (fun p => if p.1 == k0 then (p.1, g p.2) else p)).find? (fun p => p.1 == k) =
      (l.find? (fun p => p.1 == k)).map
        (fun p => if p.1 == k0 then (p.1, g p.2) else p) := by
  induction l with
  | nil => rfl
  | cons p l ih =>
    by_cases hk : (p.1 == k) = true <;> by_cases h0 : (p.1 == k0) = true <;>
      simp [List.find?_cons, hk, h0, ih]

theorem getUser_isSome_iff_any (s : Store) (uid : String) :
    (getUser s uid).isSome = s.users.any (fun p => p.1 == uid) := by
  unfold getUser lookupUser
  rw [Bool.eq_iff_iff]
  simp [List.find?_isSome, List.any_eq_true]

theorem getRequest_isSome_iff_any (s : Store) (rid : Nat) :
    (getRequest s rid).isSome = s.friendRequests.any (fun p => p.1 == rid) := by
  unfold getRequest lookupRequest
  rw [Bool.eq_iff_iff]
  simp [List.find?_isSome, List.any_eq_true]

theorem map_update_option {κ ν : Type} [BEq κ] [LawfulBEq κ] [DecidableEq κ]
    (o : Option (κ × ν)) (k0 k : κ) (g : ν → ν)
    (hk : ∀ p, o = some p → p.1 = k) :
    Option.map Prod.snd (o.map (fun p => if p.1 == k0 then (p.1, g p.2) else p)) =
      if k = k0 then (Option.map Prod.snd o).map g else Option.map Prod.snd o := by
  cases o with
  | none => simp
  | some p =>
    have hp := hk p rfl
    by_cases he : k = k0 <;> simp [hp, he]

theorem lookupUser_updateFriends (users : List (String × UserDoc)) (uid fid uid' : String) :
    lookupUser (updateFriends users uid fid) uid' =
      if uid' = uid then
        (lookupUser users uid').map (addFriendTransform fid)
      else lookupUser users uid' := by
  unfold lookupUser updateFriends
  rw [find_update_assoc, map_update_option (users.find? (fun p => p.1 == uid')) uid uid'
    (addFriendTransform fid) (fun p hp => by simpa using List.find?_some hp)]

theorem lookupRequest_setStatusMap (reqs : List (Nat × FriendRequest)) (rid : Nat)
    (st : String) (rid' : Nat) :
    lookupRequest (setStatusMap reqs rid st) rid' =
      if rid' = rid then
        (lookupRequest reqs rid').map (setStatusTransform st)
      else lookupRequest reqs rid' := by
  unfold lookupRequest setStatusMap
  rw [find_update_assoc, map_update_option (reqs.find? (fun p => p.1 == rid'))
    rid rid' (setStatusTransform st) (fun p hp => by simpa using List.find?_some hp)]

theorem addFriend_of_getUser (s : Store) (uid fid : String) (u : UserDoc)
    (h : getUser s uid = some u) :
    addFriend s uid fid = .ok { s with users := updateFriends s.users uid fid } := by
  unfold addFriend
  have hany : s.users.any (fun p => p.1 == uid) = true := by
    rw [← getUser_isSome_iff_any, h, Option.isSome_some]
  rw [hany]
  simp

theorem setRequestStatus_of_getRequest (s : Store) (rid : Nat) (st : String)
    (req : FriendRequest) (h : getRequest s rid = some req) :
    setRequestStatus s rid st =
      .ok { s with friendRequests := setStatusMap s.friendRequests rid st } := by
  unfold setRequestStatus
  have hany : s.friendRequests.any (fun p => p.1 == rid) = true := by
    rw [← getRequest_isSome_iff_any, h, Option.isSome_some]
  rw [hany]
  simp

theorem mem_arrayUnion_self (l : List String) (x : String) : x ∈ arrayUnion l x := by
  unfold arrayUnion
  by_cases h : x ∈ l <;> simp [h]

theorem nodup_arrayUnion (l : List String) (x : String) (h : l.Nodup) :
    (arrayUnion l x).Nodup := by
  unfold arrayUnion
  by_cases hx : x ∈ l
  · simpa [hx] using h
  · rw [if_neg hx, List.nodup_append]
    exact ⟨h, List.nodup_singleton x, by simpa using hx⟩

theorem count_arrayUnion_self (l : List String) (x : String) (h : l.Nodup) :
    (arrayUnion l x).count x = 1 := by
  unfold arrayUnion
  by_cases hx : x ∈ l
  · simpa [hx] using List.count_eq_one_of_mem h hx
  · have h0 : l.count x = 0 := List.count_eq_zero.mpr hx
    simp [hx, h0]

theorem arrayUnion_idem (l : List String) (x : String) :
    arrayUnion (arrayUnion l x) x = arrayUnion l x := by
  have := mem_arrayUnion_self l x
  unfold arrayUnion
  by_cases hx : x ∈ l <;> simp_all [arrayUnion]

/-- On the happy path (user exists, pair not already friends, no pending
duplicate) `sendFriendRequest` appends exactly one new pending request. -/
theorem sendFriendRequest_creates (s : Store) (now : Int) (a b : String) (u : UserDoc)
    (hu : getUser s a = some u) (hfr : b ∉ u.friends)
    (hpend : ∀ p ∈ s.friendRequests,
      ¬(p.2.fromUserID = a ∧ p.2.toUserID = b ∧ p.2.status = "pending")) :
    sendFriendRequest s now a b =
      .ok ({ s with
              friendRequests := s.friendRequests ++ [(s.nextId, ⟨a, b, "pending", now⟩)],
              nextId := s.nextId + 1 }, s.nextId) := by
  unfold sendFriendRequest
  have hany : (s.friendRequests.any (fun p =>
      p.2.fromUserID == a && p.2.toUserID == b && p.2.status == "pending")) = false := by
    rw [List.any_eq_false]
    intro p hp
    have := hpend p hp
    simp only [Bool.and_eq_true, beq_iff_eq]
    tauto
  rw [hany, hu]
  simp [hfr]

/-- Claim C2, counterexample: in a state holding only user `a` (no friends, no
requests), `sendFriendRequest("a","a")` does not fail at all — it succeeds and
writes a pending self-request document, refuting that every self-request fails
with a SelfRequest error and creates no document. -/
theorem sendFriendRequest_self_succeeds_cex :
    sendFriendRequest pairStore 0 "a" "a" =
      .ok ({ pairStore with
              friendRequests := [(0, ⟨"a", "a", "pending", 0⟩)], nextId := 1 }, 0) := by
  rfl

/-- Claim C2 (amended): `sendFriendRequest` performs no self-request check.
When user `a` exists, is not listed among their own friends, and no pending
(`a`,`a`) request exists, `sendFriendRequest(a,a)` succeeds and creates a
pending request from `a` to `a`; self-adding is blocked only by the add-friend
screen, outside this function. -/
theorem sendFriendRequest_no_self_check (s : Store) (now : Int) (a : String) (u : UserDoc)
    (hu : getUser s a = some u) (hself : a ∉ u.friends)
    (hpend : ∀ p ∈ s.friendRequests,
      ¬(p.2.fromUserID = a ∧ p.2.toUserID = a ∧ p.2.status = "pending")) :
    sendFriendRequest s now a a =
      .ok ({ s with
              friendRequests := s.friendRequests ++ [(s.nextId, ⟨a, a, "pending", now⟩)],
              nextId := s.nextId + 1 }, s.nextId) :=
  sendFriendRequest_creates s now a a u hu hself hpend

/-- Claim C2 witness: the amended theorem applied to the two-user store. -/
theorem sendFriendRequest_no_self_check_witness :
    getUser pairStore "a" = some uAlice ∧ "a" ∉ uAlice.friends ∧
      sendFriendRequest pairStore 0 "a" "a" =
        .ok ({ pairStore with
                friendRequests := [(0, ⟨"a", "a", "pending", 0⟩)], nextId := 1 }, 0) := by
  refine ⟨rfl, by simp [uAlice], ?_⟩
  exact sendFriendRequest_no_self_check pairStore 0 "a" uAlice rfl (by simp [uAlice])
    (fun p hp => by simp [pairStore] at hp)

/-- Claim C4: for distinct users `a`, `b` that are not already friends and with
no pending (`a`,`b`) request, the first `sendFriendRequest(a,b)` succeeds and
an immediately following `sendFriendRequest(a,b)` fails with the
duplicate-request error, creating no new document; exactly one pending request
for the ordered pair exists after the first call. -/
theorem duplicate_pending_request_rejected (s : Store) (now now2 : Int) (a b : String)
    (u : UserDoc) (hab : a ≠ b) (hu : getUser s a = some u) (hfr : b ∉ u.friends)
    (hpend : ∀ p ∈ s.friendRequests,
      ¬(p.2.fromUserID = a ∧ p.2.toUserID = b ∧ p.2.status = "pending")) :
    ∃ t rid, sendFriendRequest s now a b = .ok (t, rid) ∧
      sendFriendRequest t now2 a b = .error .requestAlreadySent ∧
      t.friendRequests.countP (fun p =>
        p.2.fromUserID == a && p.2.toUserID == b && p.2.status == "pending") = 1 := by
  refine ⟨{ s with
            friendRequests := s.friendRequests ++ [(s.nextId, ⟨a, b, "pending", now⟩)],
            nextId := s.nextId + 1 },
          s.nextId, sendFriendRequest_creates s now a b u hu hfr hpend, ?_, ?_⟩
  · unfold sendFriendRequest
    have hany : (((s.friendRequests ++
        [(s.nextId, (⟨a, b, "pending", now⟩ : FriendRequest))]).any (fun p =>
        p.2.fromUserID == a && p.2.toUserID == b && p.2.status == "pending"))) = true := by
      simp
    rw [hany]
    simp
  · rw [List.countP_append]
    have h0 : s.friendRequests.countP (fun p =>
        p.2.fromUserID == a && p.2.toUserID == b && p.2.status == "pending") = 0 := by
      rw [List.countP_eq_zero]
      intro p hp
      have := hpend p hp
      simp only [Bool.and_eq_true, beq_iff_eq]
      tauto
    simp [h0]

/-- Claim C4 witness: the theorem applied to the two-user store. -/
theorem duplicate_pending_request_rejected_witness :
    ("a" : String) ≠ "b" ∧ getUser pairStore "a" = some uAlice ∧ "b" ∉ uAlice.friends ∧
      ∃ t rid, sendFriendRequest pairStore 0 "a" "b" = .ok (t, rid) ∧
        sendFriendRequest t 1 "a" "b" = .error .requestAlreadySent ∧
        t.friendRequests.countP (fun p =>
          p.2.fromUserID == "a" && p.2.toUserID == "b" && p.2.status == "pending") = 1 := by
  refine ⟨by decide, rfl, by simp [uAlice], ?_⟩
  exact duplicate_pending_request_rejected pairStore 0 1 "a" "b" uAlice (by decide) rfl
    (by simp [uAlice]) (fun p hp => by simp [pairStore] at hp)

/-- Claim C5, counterexample: `createWorkout` called with a calorie argument of
500 writes a workout document whose `caloriesConsumed` field is 500 — the
workout document does store a calorie field, refuting that calories are never
stored on a workout record. -/
theorem createWorkout_stores_calories_cex :
    ((createWorkout emptyStore 0 "a" 0 500 "Chest" true).1.workouts.map
      (fun p => p.2.caloriesConsumed)) = [500] := by
  rfl

/-- Claim C5 (amended): every workout document written by `createWorkout`
includes a `caloriesConsumed` field holding exactly the argument of the caller (the
call sites in the app pass 0 and track real calorie intake in `calorieEntries`
documents instead). -/
theorem createWorkout_calories_field (s : Store) (now : Int) (uid : String) (date cals : Int)
    (mg : String) (comp : Bool) :
    (createWorkout s now uid date cals mg comp).1.workouts =
      s.workouts ++ [(s.nextId,
        { userID := uid, date := date, caloriesConsumed := cals, muscleGroup := mg,
          completed := comp, createdAt := now })] := by
  rfl

/-- Claim C8, counterexample: `searchUserByNameAndCode` applied to a five-digit
code does not fail with any InvalidCodeFormat error — it runs the exact-match
lookup and here even returns a user whose stored code has five digits. -/
theorem search_no_format_check_cex :
    searchUserByNameAndCode searchStore "Cara" "12345" = some ("c", uCara) := by
  rfl

/-- Claim C8 (amended): `searchUserByNameAndCode` performs no code-format
validation: for every (name, code) pair — 4-digit or not — it performs the
exact-match lookup, returning at most one matching user, and returns `none`
(not a failure) exactly when no user matches; the 4-digit check lives in the
add-friend screen, outside this function. -/
theorem searchUserByNameAndCode_lookup (s : Store) (name code : String) :
    (∀ r, searchUserByNameAndCode s name code = some r →
       r ∈ s.users ∧ r.2.name = name ∧ r.2.friendCode = code) ∧
    (searchUserByNameAndCode s name code = none ↔
       ∀ p ∈ s.users, ¬(p.2.name = name ∧ p.2.friendCode = code)) := by
  constructor
  · intro r hr
    unfold searchUserByNameAndCode at hr
    have hmem : r ∈ s.users.filter (fun p => p.2.name == name && p.2.friendCode == code) :=
      List.mem_of_mem_head? (Option.mem_def.mpr hr)
    have h2 := List.mem_filter.mp hmem
    have h3 := h2.2
    simp only [Bool.and_eq_true, beq_iff_eq] at h3
    exact ⟨h2.1, h3.1, h3.2⟩
  · unfold searchUserByNameAndCode
    rw [List.head?_eq_none_iff, List.filter_eq_nil_iff]
    constructor <;>
      { intro h p hp
        have := h p hp
        simp_all }

/-- Claim C8 witness: the amended theorem applied to the store holding a user
with a five-digit code. -/
theorem searchUserByNameAndCode_lookup_witness :
    searchUserByNameAndCode searchStore "Cara" "12345" = some ("c", uCara) ∧
      (("c", uCara) ∈ searchStore.users ∧ uCara.name = "Cara" ∧
        uCara.friendCode = "12345") := by
  exact ⟨rfl, (searchUserByNameAndCode_lookup searchStore "Cara" "12345").1 ("c", uCara) rfl⟩

/-- Claim C3, counterexample: on a store whose request 0 is already accepted,
`acceptFriendRequest(0)` succeeds (no AlreadyResolved failure) and
`rejectFriendRequest(0)` succeeds and flips the resolved status to rejected —
a resolved request is not immutable. -/
theorem resolved_request_not_immutable_cex :
    (acceptFriendRequest resolvedStore 0).isOk = true ∧
      rejectFriendRequest resolvedStore 0 =
        .ok { resolvedStore with friendRequests := [(0, ⟨"a", "b", "rejected", 0⟩)] } := by
  exact ⟨rfl, rfl⟩

/-- Claim C3 (amended): `acceptFriendRequest` fails with the not-found error
when the request is missing, and `rejectFriendRequest` fails only through the
store rejecting an update of a missing document; neither checks the stored
status: rejecting any existing request sets its status to rejected, and
accepting any existing request whose two users exist succeeds and sets its
status to accepted, whatever the previous status was. -/
theorem accept_reject_status_behavior :
    (∀ (s : Store) (rid : Nat), getRequest s rid = none →
        acceptFriendRequest s rid = .error .requestNotFound) ∧
    (∀ (s : Store) (rid : Nat), getRequest s rid = none →
        rejectFriendRequest s rid = .error .docMissing) ∧
    (∀ (s : Store) (rid : Nat) (req : FriendRequest), getRequest s rid = some req →
        ∃ t, rejectFriendRequest s rid = .ok t ∧
          getRequest t rid = some { req with status := "rejected" }) ∧
    (∀ (s : Store) (rid : Nat) (req : FriendRequest) (u v : UserDoc),
        getRequest s rid = some req →
        getUser s req.fromUserID = some u → getUser s req.toUserID = some v →
        ∃ t, acceptFriendRequest s rid = .ok t ∧
          getRequest t rid = some { req with status := "accepted" }) := by
  refine ⟨?_, ?_, ?_, ?_⟩
  · intro s rid h
    simp [acceptFriendRequest, h]
  · intro s rid h
    unfold rejectFriendRequest setRequestStatus
    have hany : s.friendRequests.any (fun p => p.1 == rid) = false := by
      rw [← getRequest_isSome_iff_any, h, Option.isSome_none]
    simp [hany]
  · intro s rid req h
    have h' : lookupRequest s.friendRequests rid = some req := h
    refine ⟨_, setRequestStatus_of_getRequest s rid "rejected" req h, ?_⟩
    show lookupRequest (setStatusMap s.friendRequests rid "rejected") rid = _
    rw [lookupRequest_setStatusMap, if_pos rfl, h']
    rfl
  · intro s rid req u v hreq hu hv
    have hreq' : lookupRequest s.friendRequests rid = some req := hreq
    have hu' : lookupUser s.users req.fromUserID = some u := hu
    have hv' : lookupUser s.users req.toUserID = some v := hv
    have h1 := addFriend_of_getUser s req.fromUserID req.toUserID u hu
    have h2 : ∃ w, lookupUser (updateFriends s.users req.fromUserID req.toUserID)
        req.toUserID = some w := by
      rw [lookupUser_updateFriends]
      by_cases he : req.toUserID = req.fromUserID <;> simp [he, hu', hv']
    obtain ⟨w, hw⟩ := h2
    have hw' : getUser { s with users := updateFriends s.users req.fromUserID req.toUserID }
        req.toUserID = some w := hw
    have h3 := addFriend_of_getUser _ req.toUserID req.fromUserID w hw'
    have h4 : getRequest { s with users := (updateFriends
        (updateFriends s.users req.fromUserID req.toUserID)
        req.toUserID req.fromUserID) } rid = some req := hreq
    have h5 := setRequestStatus_of_getRequest _ rid "accepted" req h4
    have hacc : acceptFriendRequest s rid =
        setRequestStatus { s with users := (updateFriends
          (updateFriends s.users req.fromUserID req.toUserID)
          req.toUserID req.fromUserID) } rid "accepted" := by
      simp only [acceptFriendRequest, hreq, h1, h3]
    refine ⟨_, by rw [hacc, h5], ?_⟩
    show lookupRequest (setStatusMap s.friendRequests rid "accepted") rid = _
    rw [lookupRequest_setStatusMap, if_pos rfl, hreq']
    rfl

/-- Claim C3 witness: the amended theorem applied to the empty store (missing
request) and to the store with an already-accepted request. -/
theorem accept_reject_status_behavior_witness :
    (getRequest emptyStore 7 = none ∧
      acceptFriendRequest emptyStore 7 = .error .requestNotFound ∧
      rejectFriendRequest emptyStore 7 = .error .docMissing) ∧
    (getRequest resolvedStore 0 = some ⟨"a", "b", "accepted", 0⟩ ∧
      (∃ t, rejectFriendRequest resolvedStore 0 = .ok t ∧
        getRequest t 0 = some ⟨"a", "b", "rejected", 0⟩) ∧
      (∃ t, acceptFriendRequest resolvedStore 0 = .ok t ∧
        getRequest t 0 = some ⟨"a", "b", "accepted", 0⟩)) := by
  refine ⟨⟨rfl, ?_, ?_⟩, rfl, ?_, ?_⟩
  · exact accept_reject_status_behavior.1 emptyStore 7 rfl
  · exact accept_reject_status_behavior.2.1 emptyStore 7 rfl
  · exact accept_reject_status_behavior.2.2.1 resolvedStore 0 ⟨"a", "b", "accepted", 0⟩ rfl
  · exact accept_reject_status_behavior.2.2.2 resolvedStore 0 ⟨"a", "b", "accepted", 0⟩
      { uAlice with friends := ["b"] } { uBob with friends := ["a"] } rfl rfl rfl

/-- Claim C1: accepting a friend request present in the store succeeds (its
two user documents existing, their friends arrays duplicate-free) and
afterwards the recipient id is in the friends array of the sender and the sender id
in that of the recipient, each exactly once — also when an id was already present,
since the arrayUnion re-add is a no-op rather than an error. -/
theorem acceptFriendRequest_symmetric_once (s : Store) (rid : Nat) (req : FriendRequest)
    (u v : UserDoc) (hreq : getRequest s rid = some req)
    (hu : getUser s req.fromUserID = some u) (hnu : u.friends.Nodup)
    (hv : getUser s req.toUserID = some v) (hnv : v.friends.Nodup) :
    ∃ t, acceptFriendRequest s rid = .ok t ∧
      (∃ u2, getUser t req.fromUserID = some u2 ∧ req.toUserID ∈ u2.friends ∧
        u2.friends.count req.toUserID = 1) ∧
      (∃ v2, getUser t req.toUserID = some v2 ∧ req.fromUserID ∈ v2.friends ∧
        v2.friends.count req.fromUserID = 1) := by
  have hreq' : lookupRequest s.friendRequests rid = some req := hreq
  have hu' : lookupUser s.users req.fromUserID = some u := hu
  have hv' : lookupUser s.users req.toUserID = some v := hv
  have h1 := addFriend_of_getUser s req.fromUserID req.toUserID u hu
  have h4 : getRequest { s with users := (updateFriends
      (updateFriends s.users req.fromUserID req.toUserID)
      req.toUserID req.fromUserID) } rid = some req := hreq
  have h5 := setRequestStatus_of_getRequest _ rid "accepted" req h4
  by_cases he : req.toUserID = req.fromUserID
  · -- self request: both parties are the same user document
    have hw : lookupUser (updateFriends s.users req.fromUserID req.toUserID)
        req.toUserID = some (addFriendTransform req.toUserID u) := by
      rw [lookupUser_updateFriends, if_pos he, he, hu']
      rfl
    have hw' : getUser { s with users := updateFriends s.users req.fromUserID req.toUserID }
        req.toUserID = some (addFriendTransform req.toUserID u) := hw
    have h3 := addFriend_of_getUser _ req.toUserID req.fromUserID
      (addFriendTransform req.toUserID u) hw'
    have hacc : acceptFriendRequest s rid =
        setRequestStatus { s with users := (updateFriends
          (updateFriends s.users req.fromUserID req.toUserID)
          req.toUserID req.fromUserID) } rid "accepted" := by
      simp only [acceptFriendRequest, hreq, h1, h3]
    have hdoc : lookupUser (updateFriends
        (updateFriends s.users req.fromUserID req.toUserID)
        req.toUserID req.fromUserID) req.fromUserID =
        some (addFriendTransform req.fromUserID (addFriendTransform req.toUserID u)) := by
      rw [lookupUser_updateFriends, if_pos he.symm, lookupUser_updateFriends, if_pos rfl, hu']
      rfl
    have hfl : (addFriendTransform req.fromUserID (addFriendTransform req.toUserID u)).friends
        = arrayUnion u.friends req.fromUserID := by
      simp [addFriendTransform, he, arrayUnion_idem]
    refine ⟨_, by rw [hacc, h5], ?_, ?_⟩
    · refine ⟨_, hdoc, ?_, ?_⟩
      · rw [hfl, he]
        exact mem_arrayUnion_self u.friends req.fromUserID
      · rw [hfl, he]
        exact count_arrayUnion_self u.friends req.fromUserID hnu
    · have hdoc2 : lookupUser (updateFriends
          (updateFriends s.users req.fromUserID req.toUserID)
          req.toUserID req.fromUserID) req.toUserID =
          some (addFriendTransform req.fromUserID (addFriendTransform req.toUserID u)) := by
        rw [lookupUser_updateFriends, if_pos rfl, hw]
        rfl
      refine ⟨_, hdoc2, ?_, ?_⟩
      · rw [hfl]
        exact mem_arrayUnion_self u.friends req.fromUserID
      · rw [hfl]
        exact count_arrayUnion_self u.friends req.fromUserID hnu
  · -- distinct users
    have hw : lookupUser (updateFriends s.users req.fromUserID req.toUserID)
        req.toUserID = some v := by
      rw [lookupUser_updateFriends, if_neg he, hv']
    have hw' : getUser { s with users := updateFriends s.users req.fromUserID req.toUserID }
        req.toUserID = some v := hw
    have h3 := addFriend_of_getUser _ req.toUserID req.fromUserID v hw'
    have hacc : acceptFriendRequest s rid =
        setRequestStatus { s with users := (updateFriends
          (updateFriends s.users req.fromUserID req.toUserID)
          req.toUserID req.fromUserID) } rid "accepted" := by
      simp only [acceptFriendRequest, hreq, h1, h3]
    have hdocf : lookupUser (updateFriends
        (updateFriends s.users req.fromUserID req.toUserID)
        req.toUserID req.fromUserID) req.fromUserID =
        some (addFriendTransform req.toUserID u) := by
      have hfg : ¬(req.fromUserID = req.toUserID) := fun hq => he hq.symm
      rw [lookupUser_updateFriends, if_neg hfg, lookupUser_updateFriends, if_pos rfl, hu']
      rfl
    have hdoct : lookupUser (updateFriends
        (updateFriends s.users req.fromUserID req.toUserID)
        req.toUserID req.fromUserID) req.toUserID =
        some (addFriendTransform req.fromUserID v) := by
      rw [lookupUser_updateFriends, if_pos rfl, hw]
      rfl
    refine ⟨_, by rw [hacc, h5], ?_, ?_⟩
    · exact ⟨_, hdocf, mem_arrayUnion_self u.friends req.toUserID,
        count_arrayUnion_self u.friends req.toUserID hnu⟩
    · exact ⟨_, hdoct, mem_arrayUnion_self v.friends req.fromUserID,
        count_arrayUnion_self v.friends req.fromUserID hnv⟩

/-- Claim C1 witness: the theorem applied to a store with a pending request
between two users with empty friends arrays. -/
theorem acceptFriendRequest_symmetric_once_witness :
    getRequest requestStore 0 = some ⟨"a", "b", "pending", 0⟩ ∧
      getUser requestStore "a" = some uAlice ∧ uAlice.friends.Nodup ∧
      getUser requestStore "b" = some uBob ∧ uBob.friends.Nodup ∧
      ∃ t, acceptFriendRequest requestStore 0 = .ok t ∧
        (∃ u2, getUser t "a" = some u2 ∧ "b" ∈ u2.friends ∧ u2.friends.count "b" = 1) ∧
        (∃ v2, getUser t "b" = some v2 ∧ "a" ∈ v2.friends ∧ v2.friends.count "a" = 1) := by
  refine ⟨rfl, rfl, by decide, rfl, by decide, ?_⟩
  exact acceptFriendRequest_symmetric_once requestStore 0 ⟨"a", "b", "pending", 0⟩
    uAlice uBob rfl rfl (by decide) rfl (by decide)

/-- A successful draw loop run returns one of its draws, checked unique. -/
theorem genFrom_ok (users : List (String × UserDoc)) (draws : Nat → Nat) :
    ∀ (fuel i : Nat) (c : String), genFrom users draws i fuel = .ok c →
      ∃ j, i ≤ j ∧ j < i + fuel ∧ c = toString (draws j) ∧
        ∀ p ∈ users, ¬(p.2.friendCode = c) := by
  intro fuel
  induction fuel with
  | zero =>
    intro i c h
    simp [genFrom] at h
  | succ n ih =>
    intro i c h
    simp only [genFrom] at h
    by_cases hany : (users.any (fun p => p.2.friendCode == toString (draws i))) = true
    · rw [if_pos hany] at h
      obtain ⟨j, hj1, hj2, hj3, hj4⟩ := ih (i + 1) c h
      exact ⟨j, by omega, by omega, hj3, hj4⟩
    · rw [if_neg hany] at h
      have hc : toString (draws i) = c := by
        simpa using h
      refine ⟨i, le_refl i, by omega, hc.symm, ?_⟩
      intro p hp hpc
      apply hany
      rw [List.any_eq_true]
      exact ⟨p, hp, by simp [hpc, hc]⟩

/-- When every draw of the window collides, the loop exhausts its attempts. -/
theorem genFrom_exhaust (users : List (String × UserDoc)) (draws : Nat → Nat) :
    ∀ (fuel i : Nat),
      (∀ j, i ≤ j → j < i + fuel →
        (users.any (fun p => p.2.friendCode == toString (draws j))) = true) →
      genFrom users draws i fuel = .error .codeGenFailed := by
  intro fuel
  induction fuel with
  | zero => intro i _; rfl
  | succ n ih =>
    intro i h
    have hi := h i (le_refl i) (by omega)
    simp only [genFrom]
    rw [if_pos hi]
    exact ih (i + 1) (fun j hj1 hj2 => h j (by omega) (by omega))

/-- The loop only ever reads the draws of its attempt window. -/
theorem genFrom_congr (users : List (String × UserDoc)) :
    ∀ (fuel i : Nat) (draws draws2 : Nat → Nat),
      (∀ j, i ≤ j → j < i + fuel → draws j = draws2 j) →
      genFrom users draws i fuel = genFrom users draws2 i fuel := by
  intro fuel
  induction fuel with
  | zero => intro i _ _ _; rfl
  | succ n ih =>
    intro i d d2 h
    have hi : d i = d2 i := h i (le_refl i) (by omega)
    simp only [genFrom, hi]
    by_cases hany : (users.any (fun p => p.2.friendCode == toString (d2 i))) = true
    · rw [if_pos hany, if_pos hany]
      exact ih (i + 1) d d2 (fun j h1 h2 => h j (by omega) (by omega))
    · rw [if_neg hany, if_neg hany]

/-- Claim C7: with every draw a 4-digit value (the contract of
`Math.floor(1000 + Math.random() * 9000)`), a successful
`generateUniqueFriendCode` returns the decimal string of a value in
[1000, 9999] held by no existing user at the time of the check; the function
reads at most its first 100 draws; and when all 100 draws collide with
existing codes it fails with the exhaustion error instead of returning a
duplicate. -/
theorem generateUniqueFriendCode_spec (s : Store) (draws : Nat → Nat)
    (hrange : ∀ i, 1000 ≤ draws i ∧ draws i ≤ 9999) :
    (∀ c, generateUniqueFriendCode s draws = .ok c →
       (∃ n, 1000 ≤ n ∧ n ≤ 9999 ∧ c = toString n) ∧
       ∀ p ∈ s.users, p.2.friendCode ≠ c) ∧
    ((∀ i, i < 100 → ∃ p ∈ s.users, p.2.friendCode = toString (draws i)) →
       generateUniqueFriendCode s draws = .error .codeGenFailed) ∧
    (∀ draws2, (∀ i, i < 100 → draws i = draws2 i) →
       generateUniqueFriendCode s draws = generateUniqueFriendCode s draws2) := by
  refine ⟨?_, ?_, ?_⟩
  · intro c h
    obtain ⟨j, _, _, hc, hun⟩ := genFrom_ok s.users draws 100 0 c h
    exact ⟨⟨draws j, (hrange j).1, (hrange j).2, hc⟩, hun⟩
  · intro h
    apply genFrom_exhaust
    intro j hj1 hj2
    obtain ⟨p, hp, hpc⟩ := h j (by omega)
    rw [List.any_eq_true]
    exact ⟨p, hp, by simp [hpc]⟩
  · intro d2 h
    exact genFrom_congr s.users 100 0 draws d2 (fun j h1 h2 => h j (by omega))

/-- Claim C7 witness: the theorem applied to the constant draw stream 1001 over
a store whose only user holds code 1000. -/
theorem generateUniqueFriendCode_spec_witness :
    (∀ i, 1000 ≤ constDraws i ∧ constDraws i ≤ 9999) ∧
      generateUniqueFriendCode codeStore constDraws = .ok "1001" ∧
      ((∃ n, 1000 ≤ n ∧ n ≤ 9999 ∧ ("1001" : String) = toString n) ∧
        ∀ p ∈ codeStore.users, p.2.friendCode ≠ "1001") := by
  have hr : ∀ i, 1000 ≤ constDraws i ∧ constDraws i ≤ 9999 := by
    intro i
    exact ⟨by norm_num [constDraws], by norm_num [constDraws]⟩
  have hok : generateUniqueFriendCode codeStore constDraws = .ok "1001" := by rfl
  exact ⟨hr, hok, (generateUniqueFriendCode_spec codeStore constDraws hr).1 "1001" hok⟩

/-- Claim C10: `createCalorieEntry` persists its entry dated at the local start
of the given day: the stored date is a midnight instant of the same calendar
day, and it falls inside the aggregation window of a day exactly when the given
date belongs to that calendar day, whatever the time of day logged. -/
theorem calorieEntry_date_normalized (s : Store) (now : Int) (uid : String)
    (date amount : Int) (desc : String) (macros : Option Macros) :
    ∃ e, (createCalorieEntry s now uid date amount desc macros).1.calorieEntries =
        s.calorieEntries ++ [(s.nextId, e)] ∧
      e.date = startOfDayMs date ∧
      e.date % msPerDay = 0 ∧
      calendarDay e.date = calendarDay date ∧
      ∀ qnow : Int,
        ((getTodayDateRange qnow).1 ≤ e.date ∧ e.date ≤ (getTodayDateRange qnow).2) ↔
          calendarDay date = calendarDay qnow := by
  refine ⟨_, rfl, rfl, ?_, ?_, ?_⟩
  · show startOfDayMs date % msPerDay = 0
    unfold startOfDayMs msPerDay
    omega
  · show calendarDay (startOfDayMs date) = calendarDay date
    unfold calendarDay startOfDayMs msPerDay
    omega
  · intro qnow
    show ((getTodayDateRange qnow).1 ≤ startOfDayMs date ∧
        startOfDayMs date ≤ (getTodayDateRange qnow).2) ↔
      calendarDay date = calendarDay qnow
    unfold getTodayDateRange startOfDayMs calendarDay msPerDay
    constructor
    · intro hq
      omega
    · intro hq
      omega

/-- Unfolding the per-user aggregation one entry at a time. -/
theorem userTotal_cons (u : String) (e : CalorieEntry) (l : List CalorieEntry) :
    userTotal u (e :: l) = (if e.userID = u then e.amount else 0) + userTotal u l := by
  by_cases h : e.userID = u <;> simp [userTotal, List.filter_cons, h]

/-- The mutating accumulation loop computes the per-user filtered sum. -/
theorem aggregateCalories_eq (entries : List CalorieEntry) (u : String) :
    aggregateCalories entries u = userTotal u entries := by
  have key : ∀ (l : List CalorieEntry) (m : String → Int),
      (l.foldl (fun m e => fun u => if u == e.userID then m u + e.amount else m u) m) u =
        m u + userTotal u l := by
    intro l
    induction l with
    | nil => intro m; simp [userTotal]
    | cons e l ih =>
      intro m
      rw [List.foldl_cons, ih, userTotal_cons]
      by_cases h : e.userID = u
      · simp only [h, beq_self_eq_true, if_pos]
        ring
      · have h2 : ¬(u = e.userID) := fun hq => h hq.symm
        simp only [beq_iff_eq, h, h2, if_neg, if_false]
        ring
  unfold aggregateCalories
  rw [key]
  simp

/-- Per-user totals are invariant under permutation of the entry list. -/
theorem userTotal_perm (u : String) (l1 l2 : List CalorieEntry) (h : l1.Perm l2) :
    userTotal u l1 = userTotal u l2 := by
  unfold userTotal
  exact ((h.filter _).map _).sum_eq

/-- Conjunction of boolean tests, as a biconditional. -/
theorem band_true_iff {a b : Bool} : (a && b) = true ↔ (a = true ∧ b = true) := by
  simp

/-- Filtering by a predicate split into two disjoint cases, then concatenating,
permutes into filtering by the combined predicate. -/
theorem filter_union_split_perm {α : Type} (f1 f2 f : α → Bool)
    (hsplit : ∀ a, f a = true ↔ (f1 a = true ∨ f2 a = true))
    (hdisj : ∀ a, ¬(f1 a = true ∧ f2 a = true)) :
    ∀ l : List α, (l.filter f1 ++ l.filter f2).Perm (l.filter f) := by
  intro l
  induction l with
  | nil => simp
  | cons a l ih =>
    by_cases h1 : f1 a = true
    · have hf : f a = true := (hsplit a).mpr (Or.inl h1)
      have h2 : ¬(f2 a = true) := fun hq => hdisj a ⟨h1, hq⟩
      rw [List.filter_cons, List.filter_cons, List.filter_cons, if_pos h1, if_neg h2,
        if_pos hf, List.cons_append]
      exact ih.cons a
    · by_cases h2 : f2 a = true
      · have hf : f a = true := (hsplit a).mpr (Or.inr h2)
        rw [List.filter_cons, List.filter_cons, List.filter_cons, if_neg h1, if_pos h2,
          if_pos hf]
        exact List.perm_middle.trans (ih.cons a)
      · have hf : ¬(f a = true) := fun hq => by
          rcases (hsplit a).mp hq with h | h
          · exact h1 h
          · exact h2 h
        rw [List.filter_cons, List.filter_cons, List.filter_cons, if_neg h1, if_neg h2,
          if_neg hf]
        exact ih

/-- Batching a duplicate-free id list into chunks, filtering per chunk and
concatenating permutes into one filter over the whole id list. -/
theorem flatten_chunk_filter_perm {α : Type} (key : α → String) (p q : α → Bool) (m : Nat) :
    ∀ (N : Nat) (ids : List String), ids.length ≤ N → ids.Nodup → ∀ (l : List α),
      ((((chunkList (m + 1) ids).map (fun batch =>
          l.filter (fun a => batch.contains (key a) && p a && q a))).flatten)).Perm
        (l.filter (fun a => ids.contains (key a) && p a && q a)) := by
  intro N
  induction N with
  | zero =>
    intro ids hlen hnd l
    have hids : ids = [] := List.length_eq_zero.mp (Nat.le_zero.mp hlen)
    subst hids
    have hemp : (l.filter (fun a => ([] : List String).contains (key a) && p a && q a)) = [] := by
      apply List.filter_eq_nil_iff.mpr
      intro a _
      simp [List.contains, List.elem]
    rw [hemp]
    simp [chunkList]
  | succ N ih =>
    intro ids hlen hnd l
    rcases ids with _ | ⟨x, xs⟩
    · have hemp : (l.filter (fun a =>
          ([] : List String).contains (key a) && p a && q a)) = [] := by
        apply List.filter_eq_nil_iff.mpr
        intro a _
        simp [List.contains, List.elem]
      rw [hemp]
      simp [chunkList]
    · have hids : (x :: xs.take m) ++ xs.drop m = x :: xs := by
        rw [List.cons_append, List.take_append_drop]
      have hnd2 : ((x :: xs.take m) ++ xs.drop m).Nodup := by
        rw [hids]
        exact hnd
      have hrest : (xs.drop m).Nodup := (List.nodup_append.mp hnd2).2.1
      have hlen2 : (xs.drop m).length ≤ N := by
        have hx : xs.length ≤ N := by
          simpa using Nat.le_of_succ_le_succ (by simpa using hlen)
        simp only [List.length_drop]
        omega
      have hstep : chunkList (m + 1) (x :: xs) =
          (x :: xs.take m) :: chunkList (m + 1) (xs.drop m) := by
        simp [chunkList]
      rw [hstep, List.map_cons, List.flatten_cons]
      refine List.Perm.trans (List.Perm.append_left _ (ih (xs.drop m) hlen2 hrest l)) ?_
      apply filter_union_split_perm
      · intro a
        constructor
        · intro h
          have hpq := band_true_iff.mp h
          have hcp := band_true_iff.mp hpq.1
          have hmem : key a ∈ x :: xs := List.elem_iff.mp hcp.1
          rw [← hids] at hmem
          rcases List.mem_append.mp hmem with hm | hm
          · exact Or.inl (band_true_iff.mpr
              ⟨band_true_iff.mpr ⟨List.elem_iff.mpr hm, hcp.2⟩, hpq.2⟩)
          · exact Or.inr (band_true_iff.mpr
              ⟨band_true_iff.mpr ⟨List.elem_iff.mpr hm, hcp.2⟩, hpq.2⟩)
        · intro h
          rcases h with h | h
          all_goals {
            have hpq := band_true_iff.mp h
            have hcp := band_true_iff.mp hpq.1
            have hmem : key a ∈ (x :: xs.take m) ++ xs.drop m :=
              List.mem_append.mpr (by
                first
                | exact Or.inl (List.elem_iff.mp hcp.1)
                | exact Or.inr (List.elem_iff.mp hcp.1))
            rw [hids] at hmem
            exact band_true_iff.mpr
              ⟨band_true_iff.mpr ⟨List.elem_iff.mpr hmem, hcp.2⟩, hpq.2⟩
          }
      · intro a ha
        have hd := (List.nodup_append.mp hnd2).2.2
        have hm1 : key a ∈ x :: xs.take m :=
          List.elem_iff.mp (band_true_iff.mp (band_true_iff.mp ha.1).1).1
        have hm2 : key a ∈ xs.drop m :=
          List.elem_iff.mp (band_true_iff.mp (band_true_iff.mp ha.2).1).1
        exact hd hm1 hm2

/-- Claim C9: over a duplicate-free friend id list, batching into chunks of at
most 30, querying per batch and merging gives exactly the unbatched aggregate:
the same total-calories-per-user mapping, and the same same-day workout
records (the merged list is a permutation of the unbatched query, so the same
set). -/
theorem batching_merge_equivalence (entries : List CalorieEntry)
    (workouts : List WorkoutDoc) (now : Int) (userIds : List String)
    (hnd : userIds.Nodup) :
    (∀ u, getDailyCaloriesForUsers entries now userIds u =
        dailyCaloriesUnbatched entries now userIds u) ∧
    (dailyWorkoutsMerged workouts now userIds).Perm
        (dailyWorkoutsUnbatched workouts now userIds) ∧
    (∀ w, w ∈ dailyWorkoutsMerged workouts now userIds ↔
        w ∈ dailyWorkoutsUnbatched workouts now userIds) := by
  have hwk : (dailyWorkoutsMerged workouts now userIds).Perm
      (dailyWorkoutsUnbatched workouts now userIds) := by
    by_cases hemp : userIds.isEmpty
    · have h0 : userIds = [] := List.isEmpty_iff.mp hemp
      subst h0
      have hL : dailyWorkoutsMerged workouts now [] = [] := rfl
      have hR : dailyWorkoutsUnbatched workouts now [] = [] := by
        unfold dailyWorkoutsUnbatched
        apply List.filter_eq_nil_iff.mpr
        intro a _
        simp [List.contains, List.elem]
      rw [hL, hR]
    · unfold dailyWorkoutsMerged dailyWorkoutsUnbatched
      rw [if_neg hemp]
      exact flatten_chunk_filter_perm WorkoutDoc.userID
        (fun w => decide ((getTodayDateRange now).1 ≤ w.date))
        (fun w => decide (w.date ≤ (getTodayDateRange now).2)) 29
        userIds.length userIds (le_refl _) hnd workouts
  refine ⟨?_, hwk, fun w => hwk.mem_iff⟩
  intro u
  by_cases hemp : userIds.isEmpty
  · have h0 : userIds = [] := List.isEmpty_iff.mp hemp
    subst h0
    have hL : getDailyCaloriesForUsers entries now [] = fun _ => 0 := rfl
    have hR : dailyCaloriesUnbatched entries now [] u = 0 := by
      unfold dailyCaloriesUnbatched
      have hemp2 : (entries.filter (fun e => ([] : List String).contains e.userID &&
          decide ((getTodayDateRange now).1 ≤ e.date) &&
          decide (e.date ≤ (getTodayDateRange now).2))) = [] := by
        apply List.filter_eq_nil_iff.mpr
        intro a _
        simp [List.contains, List.elem]
      rw [hemp2]
      rfl
    rw [hL, hR]
  · unfold getDailyCaloriesForUsers dailyCaloriesUnbatched
    rw [if_neg hemp]
    simp only [aggregateCalories_eq]
    apply userTotal_perm
    exact flatten_chunk_filter_perm CalorieEntry.userID
      (fun e => decide ((getTodayDateRange now).1 ≤ e.date))
      (fun e => decide (e.date ≤ (getTodayDateRange now).2)) 29
      userIds.length userIds (le_refl _) hnd entries

/-- Claim C9 witness: the theorem applied to 65 distinct ids (three batches)
with concrete calorie entries and workouts. -/
theorem batching_merge_equivalence_witness :
    ids65.Nodup ∧
      ((∀ u, getDailyCaloriesForUsers calEntries65 100 ids65 u =
          dailyCaloriesUnbatched calEntries65 100 ids65 u) ∧
       (dailyWorkoutsMerged workouts65 100 ids65).Perm
          (dailyWorkoutsUnbatched workouts65 100 ids65) ∧
       (∀ w, w ∈ dailyWorkoutsMerged workouts65 100 ids65 ↔
          w ∈ dailyWorkoutsUnbatched workouts65 100 ids65)) := by
  have hnd : ids65.Nodup := by decide
  exact ⟨hnd, batching_merge_equivalence calEntries65 workouts65 100 ids65 hnd⟩

/-- Membership in a comparator insertion. -/
theorem mem_insertByCmp {α : Type} (cmp : α → α → Int) (x a : α) :
    ∀ l, a ∈ insertByCmp cmp x l ↔ (a = x ∨ a ∈ l) := by
  intro l
  induction l with
  | nil => simp [insertByCmp]
  | cons y ys ih =>
    unfold insertByCmp
    by_cases h : cmp x y ≤ 0
    · rw [if_pos h]
      simp
    · rw [if_neg h]
      simp only [List.mem_cons, ih]
      tauto

/-- Comparator insertion permutes into a cons. -/
theorem perm_insertByCmp {α : Type} (cmp : α → α → Int) (x : α) :
    ∀ l, (insertByCmp cmp x l).Perm (x :: l) := by
  intro l
  induction l with
  | nil => exact List.Perm.refl _
  | cons y ys ih =>
    unfold insertByCmp
    by_cases h : cmp x y ≤ 0
    · rw [if_pos h]
    · rw [if_neg h]
      exact (ih.cons y).trans (List.Perm.swap x y ys)

/-- The comparator sort permutes its input. -/
theorem perm_sortByCmp {α : Type} (cmp : α → α → Int) :
    ∀ l, (sortByCmp cmp l).Perm l := by
  intro l
  induction l with
  | nil => exact List.Perm.refl _
  | cons x xs ih =>
    show (insertByCmp cmp x (sortByCmp cmp xs)).Perm (x :: xs)
    exact (perm_insertByCmp cmp x _).trans (ih.cons x)

/-- Inserting into a comparator-sorted list keeps it sorted, assuming the
comparator is total and transitive on the elements involved. -/
theorem pairwise_insertByCmp {α : Type} (cmp : α → α → Int) (x : α) :
    ∀ l, (∀ y ∈ l, cmp x y ≤ 0 ∨ cmp y x ≤ 0) →
      (∀ y ∈ l, ∀ z ∈ l, cmp x y ≤ 0 → cmp y z ≤ 0 → cmp x z ≤ 0) →
      l.Pairwise (fun a b => cmp a b ≤ 0) →
      (insertByCmp cmp x l).Pairwise (fun a b => cmp a b ≤ 0) := by
  intro l
  induction l with
  | nil =>
    intro _ _ _
    simp [insertByCmp]
  | cons y ys ih =>
    intro htot htrans hpw
    rw [List.pairwise_cons] at hpw
    unfold insertByCmp
    by_cases h : cmp x y ≤ 0
    · rw [if_pos h, List.pairwise_cons]
      constructor
      · intro z hz
        rcases List.mem_cons.mp hz with rfl | hz2
        · exact h
        · exact htrans y (by simp) z (by simp [hz2]) h (hpw.1 z hz2)
      · rw [List.pairwise_cons]
        exact ⟨hpw.1, hpw.2⟩
    · rw [if_neg h, List.pairwise_cons]
      constructor
      · intro z hz
        rcases (mem_insertByCmp cmp x z ys).mp hz with rfl | hz2
        · rcases htot y (by simp) with h2 | h2
          · exact absurd h2 h
          · exact h2
        · exact hpw.1 z hz2
      · exact ih (fun z hz => htot z (by simp [hz]))
          (fun z hz w hw => htrans z (by simp [hz]) w (by simp [hw]))
          hpw.2

/-- The comparator sort produces a pairwise-ordered list whenever the
comparator is total and transitive on the elements of the list. -/
theorem pairwise_sortByCmp {α : Type} (cmp : α → α → Int) :
    ∀ l, (∀ a ∈ l, ∀ b ∈ l, cmp a b ≤ 0 ∨ cmp b a ≤ 0) →
      (∀ a ∈ l, ∀ b ∈ l, ∀ c ∈ l, cmp a b ≤ 0 → cmp b c ≤ 0 → cmp a c ≤ 0) →
      (sortByCmp cmp l).Pairwise (fun a b => cmp a b ≤ 0) := by
  intro l
  induction l with
  | nil =>
    intro _ _
    simp [sortByCmp]
  | cons x xs ih =>
    intro htot htrans
    show (insertByCmp cmp x (sortByCmp cmp xs)).Pairwise _
    have hmem : ∀ z ∈ sortByCmp cmp xs, z ∈ xs :=
      fun z hz => (perm_sortByCmp cmp xs).mem_iff.mp hz
    apply pairwise_insertByCmp
    · intro y hy
      exact htot x (by simp) y (by simp [hmem y hy])
    · intro y hy z hz
      exact htrans x (by simp) y (by simp [hmem y hy]) z (by simp [hmem z hz])
    · exact ih (fun a ha b hb => htot a (by simp [ha]) b (by simp [hb]))
        (fun a ha b hb c hc => htrans a (by simp [ha]) b (by simp [hb]) c (by simp [hc]))

/-- Every aggregated entry that worked out today carries a workout time. -/
theorem aggregateFriend_wf (workouts : List WorkoutDoc) (cals : String → Int)
    (f : UserDoc) :
    (aggregateFriend workouts cals f).workedOutToday = true →
      (aggregateFriend workouts cals f).lastWorkoutTime ≠ none := by
  by_cases hemp : (workouts.filter (fun w => w.userID == f.userID)).isEmpty
  · intro h
    exfalso
    simp [aggregateFriend, hemp] at h
  · intro _ hnone
    simp only [aggregateFriend, hemp, Bool.false_eq_true, if_false] at hnone
    have hs := List.head?_eq_none_iff.mp hnone
    have hp := perm_sortByCmp (fun a b : Int => b - a)
      ((workouts.filter (fun w => w.userID == f.userID)).map (fun w => w.date))
    rw [hs] at hp
    have hlen := hp.length_eq
    simp only [List.length_nil] at hlen
    have hm : ((workouts.filter (fun w => w.userID == f.userID)).map (fun w => w.date)) = [] :=
      List.length_eq_zero.mp hlen.symm
    exact hemp (by simp [List.isEmpty_iff, List.map_eq_nil_iff.mp hm])

/-- The pinned collation compares nonpositively exactly when the second string
does not precede the first. -/
theorem localeCompare_nonpos (s t : String) : localeCompare s t ≤ 0 ↔ ¬(t < s) := by
  unfold localeCompare
  by_cases h1 : s < t
  · simp [h1, lt_asymm h1]
  · by_cases h2 : t < s
    · simp [h1, h2]
    · simp [h1, h2]

/-- The feed comparator is total on entries that carry a time when active. -/
theorem feedCompare_total (a b : FeedEntry)
    (ha : a.workedOutToday = true → a.lastWorkoutTime ≠ none)
    (hb : b.workedOutToday = true → b.lastWorkoutTime ≠ none) :
    feedCompare a b ≤ 0 ∨ feedCompare b a ≤ 0 := by
  cases hwa : a.workedOutToday
  · cases hwb : b.workedOutToday
    · have hL : feedCompare a b = localeCompare a.name b.name := by
        simp [feedCompare, hwa, hwb]
      have hR : feedCompare b a = localeCompare b.name a.name := by
        simp [feedCompare, hwa, hwb]
      rw [hL, hR, localeCompare_nonpos, localeCompare_nonpos]
      by_cases h : b.name < a.name
      · right
        exact lt_asymm h
      · left
        exact h
    · right
      have : feedCompare b a = -1 := by
        simp [feedCompare, hwa, hwb]
      omega
  · cases hwb : b.workedOutToday
    · left
      have : feedCompare a b = -1 := by
        simp [feedCompare, hwa, hwb]
      omega
    · obtain ⟨ta, hta⟩ := Option.ne_none_iff_exists'.mp (ha hwa)
      obtain ⟨tb, htb⟩ := Option.ne_none_iff_exists'.mp (hb hwb)
      have hL : feedCompare a b = tb - ta := by
        simp [feedCompare, hwa, hwb, hta, htb]
      have hR : feedCompare b a = ta - tb := by
        simp [feedCompare, hwa, hwb, hta, htb]
      omega

/-- The feed comparator is transitive on entries that carry a time when
active. -/
theorem feedCompare_trans (a b c : FeedEntry)
    (ha : a.workedOutToday = true → a.lastWorkoutTime ≠ none)
    (hb : b.workedOutToday = true → b.lastWorkoutTime ≠ none)
    (hc : c.workedOutToday = true → c.lastWorkoutTime ≠ none)
    (hab : feedCompare a b ≤ 0) (hbc : feedCompare b c ≤ 0) :
    feedCompare a c ≤ 0 := by
  cases hwa : a.workedOutToday
  · cases hwb : b.workedOutToday
    · cases hwc : c.workedOutToday
      · have h1 : feedCompare a b = localeCompare a.name b.name := by
          simp [feedCompare, hwa, hwb]
        have h2 : feedCompare b c = localeCompare b.name c.name := by
          simp [feedCompare, hwb, hwc]
        have h3 : feedCompare a c = localeCompare a.name c.name := by
          simp [feedCompare, hwa, hwc]
        rw [h1, localeCompare_nonpos] at hab
        rw [h2, localeCompare_nonpos] at hbc
        rw [h3, localeCompare_nonpos]
        exact not_lt.mpr (le_trans (not_lt.mp hab) (not_lt.mp hbc))
      · exfalso
        have : feedCompare b c = 1 := by
          simp [feedCompare, hwb, hwc]
        omega
    · exfalso
      have : feedCompare a b = 1 := by
        simp [feedCompare, hwa, hwb]
      omega
  · cases hwc : c.workedOutToday
    · have : feedCompare a c = -1 := by
        simp [feedCompare, hwa, hwc]
      omega
    · cases hwb : b.workedOutToday
      · exfalso
        have : feedCompare b c = 1 := by
          simp [feedCompare, hwb, hwc]
        omega
      · obtain ⟨ta, hta⟩ := Option.ne_none_iff_exists'.mp (ha hwa)
        obtain ⟨tb, htb⟩ := Option.ne_none_iff_exists'.mp (hb hwb)
        obtain ⟨tc, htc⟩ := Option.ne_none_iff_exists'.mp (hc hwc)
        have h1 : feedCompare a b = tb - ta := by
          simp [feedCompare, hwa, hwb, hta, htb]
        have h2 : feedCompare b c = tc - tb := by
          simp [feedCompare, hwb, hwc, htb, htc]
        have h3 : feedCompare a c = tc - ta := by
          simp [feedCompare, hwa, hwc, hta, htc]
        omega

/-- Claim C6: the produced feed puts every friend who worked out today before
every friend who did not; within the worked-out group entries are ordered by
most recent same-day workout time descending (an entry lacking a time — which
the aggregation never produces — would sort after the timed ones, vacuously
so); within the inactive group entries are ordered by display name ascending
under the pinned case-sensitive collation; and an aggregated entry is marked
worked-out exactly when the friend has at least one same-day workout record. -/
theorem feed_sort_order (friends : List UserDoc) (workouts : List WorkoutDoc)
    (cals : String → Int) (i j : Nat) (a b : FeedEntry) (hij : i < j)
    (ha : (friendsWithWorkouts friends workouts cals)[i]? = some a)
    (hb : (friendsWithWorkouts friends workouts cals)[j]? = some b) :
    (b.workedOutToday = true → a.workedOutToday = true) ∧
    (a.workedOutToday = true → b.workedOutToday = true →
      (∀ ta tb, a.lastWorkoutTime = some ta → b.lastWorkoutTime = some tb → tb ≤ ta) ∧
      (a.lastWorkoutTime = none → b.lastWorkoutTime = none)) ∧
    (a.workedOutToday = false → b.workedOutToday = false →
      localeCompare a.name b.name ≤ 0) ∧
    (∀ f, (aggregateFriend workouts cals f).workedOutToday =
      !(workouts.filter (fun w => w.userID == f.userID)).isEmpty) := by
  have hwf : ∀ e ∈ friends.map (aggregateFriend workouts cals),
      e.workedOutToday = true → e.lastWorkoutTime ≠ none := by
    intro e he
    obtain ⟨f, _, rfl⟩ := List.mem_map.mp he
    exact aggregateFriend_wf workouts cals f
  have hpw : (friendsWithWorkouts friends workouts cals).Pairwise
      (fun x y => feedCompare x y ≤ 0) := by
    unfold friendsWithWorkouts
    apply pairwise_sortByCmp
    · intro x hx y hy
      exact feedCompare_total x y (hwf x hx) (hwf y hy)
    · intro x hx y hy z hz
      exact feedCompare_trans x y z (hwf x hx) (hwf y hy) (hwf z hz)
  obtain ⟨hi, hai⟩ := List.getElem?_eq_some_iff.mp ha
  obtain ⟨hj, hbj⟩ := List.getElem?_eq_some_iff.mp hb
  have hfa : a ∈ friends.map (aggregateFriend workouts cals) := by
    have : a ∈ friendsWithWorkouts friends workouts cals := hai ▸ List.getElem_mem hi
    exact (perm_sortByCmp feedCompare _).mem_iff.mp this
  have hfb : b ∈ friends.map (aggregateFriend workouts cals) := by
    have : b ∈ friendsWithWorkouts friends workouts cals := hbj ▸ List.getElem_mem hj
    exact (perm_sortByCmp feedCompare _).mem_iff.mp this
  have hab : feedCompare a b ≤ 0 := by
    have := List.pairwise_iff_get.mp hpw ⟨i, hi⟩ ⟨j, hj⟩ hij
    simpa [List.get_eq_getElem, hai, hbj] using this
  refine ⟨?_, ?_, ?_, ?_⟩
  · intro hwb
    cases hwa : a.workedOutToday
    · exfalso
      have : feedCompare a b = 1 := by
        simp [feedCompare, hwa, hwb]
      omega
    · rfl
  · intro hwa hwb
    constructor
    · intro ta tb hta htb
      have : feedCompare a b = tb - ta := by
        simp [feedCompare, hwa, hwb, hta, htb]
      omega
    · intro hnone
      exact absurd hnone (hwf a hfa hwa)
  · intro hwa hwb
    have : feedCompare a b = localeCompare a.name b.name := by
      simp [feedCompare, hwa, hwb]
    omega
  · intro f
    by_cases hemp : (workouts.filter (fun w => w.userID == f.userID)).isEmpty <;>
      simp [aggregateFriend, hemp]

/-- Claim C6 witness: the theorem applied to the concrete example of the spec;
F2 (worked out at 1400) sorts before F1 (worked out at 900). -/
theorem feed_sort_order_witness :
    ((0 : Nat) < 1 ∧
      (friendsWithWorkouts feedFriends feedWorkouts (fun _ => 0))[0]? =
        some (aggregateFriend feedWorkouts (fun _ => 0) fTwo) ∧
      (friendsWithWorkouts feedFriends feedWorkouts (fun _ => 0))[1]? =
        some (aggregateFriend feedWorkouts (fun _ => 0) fOne)) ∧
    (((aggregateFriend feedWorkouts (fun _ => 0) fOne).workedOutToday = true →
        (aggregateFriend feedWorkouts (fun _ => 0) fTwo).workedOutToday = true) ∧
      ((aggregateFriend feedWorkouts (fun _ => 0) fTwo).workedOutToday = true →
        (aggregateFriend feedWorkouts (fun _ => 0) fOne).workedOutToday = true →
        (∀ ta tb, (aggregateFriend feedWorkouts (fun _ => 0) fTwo).lastWorkoutTime = some ta →
          (aggregateFriend feedWorkouts (fun _ => 0) fOne).lastWorkoutTime = some tb →
          tb ≤ ta) ∧
        ((aggregateFriend feedWorkouts (fun _ => 0) fTwo).lastWorkoutTime = none →
          (aggregateFriend feedWorkouts (fun _ => 0) fOne).lastWorkoutTime = none)) ∧
      ((aggregateFriend feedWorkouts (fun _ => 0) fTwo).workedOutToday = false →
        (aggregateFriend feedWorkouts (fun _ => 0) fOne).workedOutToday = false →
        localeCompare (aggregateFriend feedWorkouts (fun _ => 0) fTwo).name
          (aggregateFriend feedWorkouts (fun _ => 0) fOne).name ≤ 0) ∧
      (∀ f, (aggregateFriend feedWorkouts (fun _ => 0) f).workedOutToday =
        !(feedWorkouts.filter (fun w => w.userID == f.userID)).isEmpty)) := by
  refine ⟨⟨by decide, rfl, rfl⟩, ?_⟩
  exact feed_sort_order feedFriends feedWorkouts (fun _ => 0) 0 1
    (aggregateFriend feedWorkouts (fun _ => 0) fTwo)
    (aggregateFriend feedWorkouts (fun _ => 0) fOne)
    (by decide) rfl rfl

end GymBros
